import Mathlib

/-!
Verification of the dynamic-analysis trace engine of this repository
(`backend/analyzers/dynamic_analyzer.py`).

The Python module is embedded shallowly:

* Python runtime values become the inductive type `PyValue`; floating point
  numbers are carried as opaque literals (no float arithmetic is modelled) and
  arbitrary objects carry their type name together with the result of `repr`
  (`Option String`, `none` meaning `repr` itself raised).
* The mutable `ExecutionTracer` object becomes the state type `TracerState`;
  the `sys.settrace` callback `trace_calls` becomes a pure step function
  `TracerState → Event → TracerState`, where an `Event` is the frame payload
  the Python runtime hands to the callback (function name, current line,
  local bindings, declared parameter names).
* Python lists that are appended at the end are modelled as Lean lists with
  append at the end (`++ [x]`), so they stay in chronological order exactly
  like the Python lists.  The two *stacks* (`function_frames`,
  `function_call_stack`), which Python appends/pops at the right end, are
  modelled with push/pop at the head; `reversed(...)` iteration over the
  call-record list is modelled by `List.reverse`.
* Python `dict`/`set` bookkeeping fields (`loop_counters`, `visited_lines`,
  `in_loop_lines`) become association lists / duplicate-free lists.
* The threaded execution harness `DynamicAnalyzer.analyze` is modelled as a
  pure function of a `WorkerRun`, an abstract description of one worker
  execution: the trace events delivered while `exec` ran — split into those
  before and those after the wall-clock deadline, because on a timeout the
  abandoned worker keeps running and stays traced — the exception (if any)
  escaping `exec`, the raw captured stdout/stderr at the moment the worker
  finished, whether the worker finished before the deadline, the final
  global namespace, and the outcome of `ast.parse` on the source.  The
  model keeps the real scheduling order of the writes to the shared trace
  object: the tracer's pre-deadline writes happen first, the supervisor's
  timeout writes happen at the deadline, the abandoned worker's tracer
  events continue after it, and the worker's `except` clause writes happen
  when the worker ends — after every trace event, and after the deadline
  whenever the run timed out, because the `ThreadPoolExecutor` context
  manager joins the worker before `analyze` reads the captured state.  (A
  worker that literally never terminates makes the Python `analyze` never
  return; the model, being a total function, covers every run for which
  `analyze` produces a result.)
* Wall-clock duration and peak-memory fields (`execution_time_ms`,
  `memory_peak_mb`) are real-time measurements and are not modelled.

All numeric constants (`MAX_SNAPSHOTS = 1000`, `MAX_EXECUTION_FLOW = 5000`,
`MAX_FUNCTION_CALLS = 500`, `MAX_VALUE_SIZE = 1000`, `MAX_OUTPUT_SIZE =
10000`, the item cap 20, the response caps 1000/500) are the source's.
-/

namespace DynAnalyzer

/-- Embedded Python runtime values as seen by the serializer. -/
inductive PyValue where
  | none
  | bool (b : Bool)
  | int (n : Int)
  | float (lit : String)
  | str (s : String)
  | list (xs : List PyValue)
  | tuple (xs : List PyValue)
  | dict (items : List (String × PyValue))
  | set (xs : List PyValue)
  | obj (type_name : String) (repr_val : Option String)
  deriving Repr

/-- Python's `type(v).__name__`. -/
def py_type_name : PyValue → String
  | .none => "NoneType"
  | .bool _ => "bool"
  | .int _ => "int"
  | .float _ => "float"
  | .str _ => "str"
  | .list _ => "list"
  | .tuple _ => "tuple"
  | .dict _ => "dict"
  | .set _ => "set"
  | .obj t _ => t

/-- Python's `v is None` identity test used by `_handle_return`. -/
def PyValue.isNone : PyValue → Bool
  | .none => true
  | _ => false

/-- Python string slicing `s[:n]` (first `n` characters). -/
def pySlice (s : String) (n : Nat) : String := String.mk (s.data.take n)

/-- Character-list prefix test. -/
def charPrefix : List Char → List Char → Bool
  | _, [] => true
  | [], _ :: _ => false
  | c :: cs, p :: ps => if c = p then charPrefix cs ps else false

/-- Python's `s.startswith(p)` (computable by kernel reduction, unlike
`String.startsWith`). -/
def startswith (s p : String) : Bool := charPrefix s.data p.data

/-- `ExecutionTracer.MAX_SNAPSHOTS`. -/
def MAX_SNAPSHOTS : Nat := 1000
/-- `ExecutionTracer.MAX_EXECUTION_FLOW`. -/
def MAX_EXECUTION_FLOW : Nat := 5000
/-- `ExecutionTracer.MAX_FUNCTION_CALLS`. -/
def MAX_FUNCTION_CALLS : Nat := 500
/-- `ExecutionTracer.MAX_VALUE_SIZE`. -/
def MAX_VALUE_SIZE : Nat := 1000
/-- `DynamicAnalyzer.MAX_OUTPUT_SIZE`. -/
def MAX_OUTPUT_SIZE : Nat := 10000

/-- Assoc-list update used for `result["..."] = ...` on the serialized dict
(replace the value if the key exists, otherwise append the pair). -/
def dictSet : List (String × PyValue) → String → PyValue → List (String × PyValue)
  | [], k, v => [(k, v)]
  | (a, b) :: rest, k, v =>
      if a = k then (a, v) :: rest else (a, b) :: dictSet rest k v

/-- `ExecutionTracer._safe_serialize(value, max_depth)`: bounded, loss-tolerant
serialization.  The depth check comes first (even primitives at depth 0 give
the marker, as in the source); sequence/tuple results are Python lists; set
elements are passed through unserialized (`list(value)[:20]`), exactly as the
source does. -/
def safe_serialize : PyValue → Nat → PyValue
  | _, 0 => .str "<max depth exceeded>"
  | .none, _ + 1 => .none
  | .bool b, _ + 1 => .bool b
  | .int n, _ + 1 => .int n
  | .float lit, _ + 1 => .float lit
  | .str s, _ + 1 =>
      if MAX_VALUE_SIZE < s.length then
        .str (pySlice s MAX_VALUE_SIZE ++ "... (truncated, total " ++
          toString s.length ++ " chars)")
      else .str s
  | .list xs, d + 1 =>
      if 20 < xs.length then
        .list ((xs.take 20).map (fun v => safe_serialize v d) ++
          [.str ("... (" ++ toString (xs.length - 20) ++ " more items)")])
      else .list (xs.map fun v => safe_serialize v d)
  | .tuple xs, d + 1 =>
      if 20 < xs.length then
        .list ((xs.take 20).map (fun v => safe_serialize v d) ++
          [.str ("... (" ++ toString (xs.length - 20) ++ " more items)")])
      else .list (xs.map fun v => safe_serialize v d)
  | .dict kvs, d + 1 =>
      if 20 < kvs.length then
        .dict (dictSet ((kvs.take 20).map fun p => (p.1, safe_serialize p.2 d))
          "..." (.str ("(" ++ toString (kvs.length - 20) ++ " more items)")))
      else .dict (kvs.map fun p => (p.1, safe_serialize p.2 d))
  | .set xs, _ + 1 =>
      .list (xs.take 20 ++
        (if 20 < xs.length then
          [.str ("... (" ++ toString (xs.length - 20) ++ " more)")] else []))
  | .obj t r, _ + 1 =>
      match r with
      | some rs =>
          if MAX_VALUE_SIZE < rs.length then .str (pySlice rs MAX_VALUE_SIZE ++ "...")
          else .str rs
      | Option.none => .str ("<" ++ t ++ " object>")

/-- Dataclass `VariableSnapshot` (line is `Int`: the post-run final-state
snapshots use the sentinel `-1`). -/
structure VariableSnapshot where
  name : String
  value : PyValue
  value_type : String
  line : Int
  scope : String
  deriving Repr

/-- Dataclass `LoopExecution`. -/
structure LoopExecution where
  line_start : Nat
  iteration_count : Nat
  loop_type : String
  deriving Repr, DecidableEq

/-- Dataclass `FunctionCall`; `return_value` defaults to Python `None`, which
is also the sentinel `_handle_return` tests with `is None`. -/
structure FunctionCall where
  function_name : String
  line : Nat
  arguments : List (String × PyValue)
  return_value : PyValue := .none
  stack_depth : Int := 0
  is_recursive_call : Bool := false
  deriving Repr

/-- Dataclass `ClassInstantiation`. -/
structure ClassInstantiation where
  class_name : String
  line : Nat
  arguments : List (String × PyValue) := []
  deriving Repr

/-- Dataclass `ExecutionTrace` (the real-time fields `execution_time_ms` and
`memory_peak_mb`, and the unused `generator_yields`, are not modelled). -/
structure ExecutionTrace where
  variable_snapshots : List VariableSnapshot := []
  loop_executions : List LoopExecution := []
  function_calls : List FunctionCall := []
  execution_flow : List Nat := []
  max_stack_depth : Int := 0
  stdout_output : String := ""
  stderr_output : String := ""
  exception : Option String := Option.none
  exception_traceback : Option String := Option.none
  class_instantiations : List ClassInstantiation := []
  timed_out : Bool := false
  total_function_calls : Nat := 0
  unique_functions_called : List String := []

/-- The mutable state of an `ExecutionTracer` instance. -/
structure TracerState where
  trace : ExecutionTrace := {}
  current_stack_depth : Int := 0
  loop_counters : List (Nat × Nat) := []
  visited_lines : List Nat := []
  in_loop_lines : List Nat := []
  function_frames : List String := []
  function_call_stack : List String := []
  stopped : Bool := false

/-- The slice of a Python frame the trace callback reads: `f_code.co_name`,
`f_lineno`, `f_locals` (an ordered association list with distinct keys), and
`f_code.co_varnames[:co_argcount]`. -/
structure Frame where
  func_name : String
  lineno : Nat
  f_locals : List (String × PyValue) := []
  arg_names : List String := []

/-- One `sys.settrace` event delivered to `trace_calls`.  The exception event
carries the pair `(type(exc).__name__, str(exc))` plus the formatted
traceback text. -/
inductive Event where
  | call (f : Frame)
  | line (f : Frame)
  | ret (f : Frame) (arg : PyValue)
  | exc (f : Frame) (etype : String) (evalue : String) (tb : String)

/-- First-match association-list lookup (`name in frame.f_locals` /
`frame.f_locals[name]`). -/
def lookupLocal : List (String × PyValue) → String → Option PyValue
  | [], _ => Option.none
  | (n, v) :: rest, k => if n = k then some v else lookupLocal rest k

/-- Insertion-ordered set add (`set.add`) for `unique_functions_called`. -/
def setAdd (l : List String) (x : String) : List String :=
  if x ∈ l then l else l ++ [x]

/-- `ExecutionTracer._handle_call`: bump depth and max depth, push the name on
both stacks, test recursion by membership *before* the push, capture declared
arguments, and (except for the `<module>` pseudo-function) append a
`FunctionCall` record and, for `__init__`, a `ClassInstantiation`. -/
def handle_call (s : TracerState) (f : Frame) : TracerState :=
  let depth := s.current_stack_depth + 1
  let maxd := max s.trace.max_stack_depth depth
  let is_recursive := f.func_name ∈ s.function_call_stack
  let args := f.arg_names.filterMap fun an =>
    match lookupLocal f.f_locals an with
    | some v => some (an, safe_serialize v 3)
    | Option.none => Option.none
  let s := { s with
    current_stack_depth := depth,
    function_frames := f.func_name :: s.function_frames,
    function_call_stack := f.func_name :: s.function_call_stack,
    trace := { s.trace with max_stack_depth := maxd } }
  if f.func_name = "<module>" then s
  else
    let callRec : FunctionCall :=
      { function_name := f.func_name, line := f.lineno, arguments := args,
        stack_depth := depth, is_recursive_call := is_recursive }
    let tr := { s.trace with
      total_function_calls := s.trace.total_function_calls + 1,
      unique_functions_called := setAdd s.trace.unique_functions_called f.func_name,
      function_calls := s.trace.function_calls ++ [callRec] }
    let tr :=
      if f.func_name = "__init__" then
        match lookupLocal f.f_locals "self" with
        | some selfv =>
            { tr with class_instantiations := tr.class_instantiations ++
                [{ class_name := py_type_name selfv, line := f.lineno,
                   arguments := (args.filter fun p => ¬ p.1 = "self").map
                     fun p => (p.1, safe_serialize p.2 3) }] }
        | Option.none => tr
      else tr
    { s with trace := tr }

/-- Increment-or-insert on the `loop_counters` dict
(`self.loop_counters[line] += 1` / `= 1`). -/
def bumpCounter : List (Nat × Nat) → Nat → List (Nat × Nat)
  | [], l => [(l, 1)]
  | (a, b) :: rest, l =>
      if a = l then (a, b + 1) :: rest else (a, b) :: bumpCounter rest l

/-- `self.loop_counters.get(line, 0)`. -/
def counterValue : List (Nat × Nat) → Nat → Nat
  | [], _ => 0
  | (a, b) :: rest, l => if a = l then b else counterValue rest l

/-- Set add for `visited_lines` / `in_loop_lines`. -/
def natSetAdd (l : List Nat) (x : Nat) : List Nat :=
  if x ∈ l then l else l ++ [x]

/-- The filter on snapshot candidates in `_handle_line`: skip dunder- and
`@`-prefixed names and transient lifecycle-method scopes. -/
def snapshot_filter (scope name : String) : Prop :=
  ¬ startswith name "__" = true ∧ ¬ startswith name "@" = true ∧
    ¬ scope ∈ ["__init__", "__enter__", "__exit__", "__call__"]

instance (scope name : String) : Decidable (snapshot_filter scope name) := by
  unfold snapshot_filter; infer_instance

/-- The `for var_name, var_value in frame.f_locals.items()` loop of
`_handle_line`: append one serialized snapshot per passing binding, breaking
as soon as the snapshot ceiling is reached. -/
def snapshot_loop (scope : String) (line : Nat) :
    List (String × PyValue) → List VariableSnapshot → List VariableSnapshot
  | [], acc => acc
  | (n, v) :: rest, acc =>
      if snapshot_filter scope n then
        let snap : VariableSnapshot :=
          ⟨n, safe_serialize v 3, py_type_name v, (line : Int), scope⟩
        let acc2 := acc ++ [snap]
        if MAX_SNAPSHOTS ≤ acc2.length then acc2
        else snapshot_loop scope line rest acc2
      else snapshot_loop scope line rest acc

/-- `ExecutionTracer._handle_line`: record the flow position (under its
ceiling), update revisit bookkeeping, and capture variable snapshots (under
their ceiling). -/
def handle_line (s : TracerState) (f : Frame) : TracerState :=
  let line_no := f.lineno
  let tr := s.trace
  let tr :=
    if tr.execution_flow.length < MAX_EXECUTION_FLOW then
      { tr with execution_flow := tr.execution_flow ++ [line_no] }
    else tr
  let s := { s with trace := tr }
  let s :=
    if line_no ∈ s.visited_lines then
      { s with in_loop_lines := natSetAdd s.in_loop_lines line_no,
               loop_counters := bumpCounter s.loop_counters line_no }
    else { s with visited_lines := s.visited_lines ++ [line_no] }
  if s.trace.variable_snapshots.length < MAX_SNAPSHOTS then
    let scope0 := s.function_frames.headD "<module>"
    let scope := if scope0 = "<module>" then "global" else scope0
    let snaps := snapshot_loop scope line_no f.f_locals s.trace.variable_snapshots
    { s with trace := { s.trace with variable_snapshots := snaps } }
  else s

/-- The `for call in reversed(...)` search of `_handle_return`, applied here
to the reversed list: replace the first record for this function name whose
`return_value` is Python `None`. -/
def fill_return (name : String) (v : PyValue) :
    List FunctionCall → List FunctionCall
  | [] => []
  | c :: rest =>
      if c.function_name = name ∧ c.return_value.isNone = true then
        { c with return_value := v } :: rest
      else c :: fill_return name v rest

/-- `ExecutionTracer._handle_return`: decrement depth, fill in the most
recent matching record whose return value is still `None`, and pop both
stacks (popping an empty stack is a no-op, as in the source's guards). -/
def handle_return (s : TracerState) (f : Frame) (arg : PyValue) : TracerState :=
  let s := { s with current_stack_depth := s.current_stack_depth - 1 }
  let s :=
    if f.func_name = "<module>" then s
    else { s with trace := { s.trace with function_calls :=
        (fill_return f.func_name (safe_serialize arg 3)
          s.trace.function_calls.reverse).reverse } }
  { s with function_frames := s.function_frames.tail,
           function_call_stack := s.function_call_stack.tail }

/-- `ExecutionTracer._handle_exception`: record `"<Kind>: <message>"` and the
formatted traceback; control flow is untouched. -/
def handle_exception (s : TracerState) (etype evalue tb : String) : TracerState :=
  { s with trace := { s.trace with
      exception := some (etype ++ ": " ++ evalue),
      exception_traceback := some tb } }

/-- `ExecutionTracer.trace_calls`: once stopped, ignore everything; trip into
the stopped state when any per-kind ceiling has been reached; otherwise
dispatch on the event kind. -/
def trace_calls (s : TracerState) (e : Event) : TracerState :=
  if s.stopped then s
  else if MAX_SNAPSHOTS ≤ s.trace.variable_snapshots.length ∨
      MAX_EXECUTION_FLOW ≤ s.trace.execution_flow.length ∨
      MAX_FUNCTION_CALLS ≤ s.trace.function_calls.length then
    { s with stopped := true }
  else
    match e with
    | .call f => handle_call s f
    | .line f => handle_line s f
    | .ret f a => handle_return s f a
    | .exc _ t v tb => handle_exception s t v tb

/-- Folding the trace callback over the event stream of one execution,
starting from a fresh `ExecutionTracer.__init__` state. -/
def processEvents (events : List Event) : TracerState :=
  events.foldl trace_calls {}

/-- One loop construct as delivered by `ast.walk` (an `ast.For` or
`ast.While` node with its `lineno`). -/
structure LoopSyntax where
  lineno : Nat
  is_for : Bool

/-- `ExecutionTracer.finalize_loop_info`: one `LoopExecution` per parsed loop
construct with the revisit count of its header line; if `ast.parse` raised
(`parsed = none`), skip loop analysis entirely. -/
def finalize_loop_info (s : TracerState) (parsed : Option (List LoopSyntax)) :
    TracerState :=
  match parsed with
  | Option.none => s
  | some loops =>
      { s with trace := { s.trace with loop_executions :=
          s.trace.loop_executions ++ loops.map fun L =>
            { line_start := L.lineno,
              iteration_count := counterValue s.loop_counters L.lineno,
              loop_type := if L.is_for then "for" else "while" } } }

mutual

/-- `DynamicAnalyzer._serialize_value`: JSON-compatibility pass applied when
compiling the result (tuples and sets become lists, objects become text;
no truncation here). -/
def serialize_value : PyValue → PyValue
  | .none => .none
  | .bool b => .bool b
  | .int n => .int n
  | .float lit => .float lit
  | .str s => .str s
  | .list xs => .list (serialize_value_list xs)
  | .tuple xs => .list (serialize_value_list xs)
  | .dict kvs => .dict (serialize_value_dict kvs)
  | .set xs => .list xs
  | .obj t r =>
      .str (match r with
        | some rs => rs
        | Option.none => "<" ++ t ++ " object>")

/-- Elementwise `_serialize_value` over a Python list. -/
def serialize_value_list : List PyValue → List PyValue
  | [] => []
  | x :: xs => serialize_value x :: serialize_value_list xs

/-- Valuewise `_serialize_value` over a Python dict. -/
def serialize_value_dict : List (String × PyValue) → List (String × PyValue)
  | [] => []
  | (k, v) :: xs => (k, serialize_value v) :: serialize_value_dict xs

end

/-- One entry of the result's `function_calls` list. -/
structure ResultCall where
  function_name : String
  line : Nat
  arguments : List (String × PyValue)
  return_value : PyValue
  stack_depth : Int
  is_recursive_call : Bool

/-- One entry of the result's `variable_snapshots` list (value passed through
`_serialize_value`). -/
structure ResultSnapshot where
  name : String
  value : PyValue
  value_type : String
  line : Int
  scope : String

/-- One entry of the result's `final_variables` mapping, keyed
`"<scope>.<name>"`. -/
structure FinalVar where
  key : String
  value : PyValue
  vtype : String

/-- The structured result dictionary returned by `DynamicAnalyzer.analyze`
(real-time fields omitted, see the module comment). -/
structure AnalyzeResult where
  execution_successful : Bool
  exception : Option String
  exception_traceback : Option String
  timed_out : Bool
  max_stack_depth : Int
  total_lines_executed : Nat
  unique_lines_executed : Nat
  execution_flow : List Nat
  execution_flow_truncated : Bool
  stdout : String
  stderr : String
  function_calls : List ResultCall
  total_function_calls : Nat
  unique_functions_called : List String
  loop_executions : List LoopExecution
  variable_snapshots : List ResultSnapshot
  variable_snapshots_truncated : Bool
  final_variables : List FinalVar
  class_instantiations : List ClassInstantiation
  has_recursion : Bool

/-- The `for snapshot in reversed(trace.variable_snapshots)` pass of
`_compile_results`: keep the first snapshot seen for each `(scope, name)`
key, i.e. the chronologically last one. -/
def final_variable_pass (snaps : List VariableSnapshot) :
    List ((String × String) × VariableSnapshot) :=
  snaps.reverse.foldl
    (fun acc sn =>
      if acc.any fun kv => kv.1 = (sn.scope, sn.name) then acc
      else acc ++ [((sn.scope, sn.name), sn)])
    []

/-- `DynamicAnalyzer._compile_results`: pure derivation of the structured
result from the finished trace. -/
def compile_results (trace : ExecutionTrace) : AnalyzeResult where
  execution_successful := trace.exception.isNone && !trace.timed_out
  exception := trace.exception
  exception_traceback := trace.exception_traceback
  timed_out := trace.timed_out
  max_stack_depth := trace.max_stack_depth
  total_lines_executed := trace.execution_flow.length
  unique_lines_executed := trace.execution_flow.eraseDups.length
  execution_flow := trace.execution_flow.take 1000
  execution_flow_truncated := decide (1000 < trace.execution_flow.length)
  stdout := trace.stdout_output
  stderr := trace.stderr_output
  function_calls := trace.function_calls.map fun c =>
    ⟨c.function_name, c.line, c.arguments, c.return_value, c.stack_depth,
      c.is_recursive_call⟩
  total_function_calls := trace.total_function_calls
  unique_functions_called := trace.unique_functions_called
  loop_executions := trace.loop_executions.map fun L =>
    ⟨L.line_start, L.iteration_count, L.loop_type⟩
  variable_snapshots := (trace.variable_snapshots.take 500).map fun sn =>
    ⟨sn.name, serialize_value sn.value, sn.value_type, sn.line, sn.scope⟩
  variable_snapshots_truncated := decide (500 < trace.variable_snapshots.length)
  final_variables := (final_variable_pass trace.variable_snapshots).map fun kv =>
    ⟨kv.1.1 ++ "." ++ kv.1.2, serialize_value kv.2.value, kv.2.value_type⟩
  class_instantiations := trace.class_instantiations
  has_recursion := trace.function_calls.any fun c => c.is_recursive_call

/-- Abstract description of one worker execution, the input of the pure
`analyze` model.  `events` are the trace events the callback processed while
`exec` ran before the wall-clock deadline; `events_after_deadline` are the
events the still-traced, abandoned worker delivered after the deadline (a
worker that finished in time delivers none, so the field is meaningful only
for `finishedInTime = false` runs); `uncaught` is the exception escaping
`exec` (caught by the worker's `except Exception` clause), carried as
`(type name, message, formatted traceback)` — for source text that does not
compile this is the `SyntaxError` raised by `exec`'s compile step, with
`events = []` since nothing was executed; `stdout_raw`/`stderr_raw` are the
capture buffers' contents when the worker's `finally` block ran;
`finishedInTime` says whether the worker completed before the wall-clock
deadline; `finalGlobals` is `exec_globals` after the run; `parsedLoops` is
the outcome of `ast.parse` in `finalize_loop_info` (`none`: parse raised). -/
structure WorkerRun where
  events : List Event
  events_after_deadline : List Event := []
  uncaught : Option (String × String × String) := Option.none
  stdout_raw : String := ""
  stderr_raw : String := ""
  finishedInTime : Bool := true
  finalGlobals : List (String × PyValue) := []
  parsedLoops : Option (List LoopSyntax) := Option.none

/-- The supervisor's message on a timeout:
`f"TimeoutError: Execution exceeded {self.timeout} seconds"`. -/
def timeout_message (timeout : Nat) : String :=
  "TimeoutError: Execution exceeded " ++ toString timeout ++ " seconds"

/-- Output-buffer truncation in the worker's `finally` block. -/
def truncate_output (s : String) : String :=
  if MAX_OUTPUT_SIZE < s.length then pySlice s MAX_OUTPUT_SIZE else s

/-- The retention test of the final-globals loop:
`not var_name.startswith('__') and var_name not in ['__builtins__']`. -/
def final_globals_pass (name : String) : Bool :=
  !(startswith name "__") && !(name = "__builtins__")

/-- The post-run final-global-variable snapshot loop of `analyze` (executed
only for runs that did not time out).  Note that, unlike the in-flow
snapshot capture, it performs no ceiling check. -/
def append_final_globals (s : TracerState) (gs : List (String × PyValue)) :
    TracerState :=
  let extra := (gs.filter fun p => final_globals_pass p.1).map fun p =>
    (⟨p.1, safe_serialize p.2 3, py_type_name p.2, (-1 : Int), "global"⟩ :
      VariableSnapshot)
  { s with trace :=
      { s.trace with variable_snapshots := s.trace.variable_snapshots ++ extra } }

/-- The tracer state once all trace events have been delivered: the
pre-deadline events, then — for a run that missed the deadline — the
supervisor's timeout writes at the deadline followed by the events the
abandoned (still traced) worker kept delivering afterwards. -/
def tracedState (timeout : Nat) (run : WorkerRun) : TracerState :=
  let s := processEvents run.events
  if run.finishedInTime then s
  else
    let tr := { s.trace with timed_out := true,
                             exception := some (timeout_message timeout) }
    run.events_after_deadline.foldl trace_calls { s with trace := tr }

/-- The state-assembly part of `DynamicAnalyzer.analyze`, in the write order
the scheduling guarantees: all tracer writes interleaved with the
supervisor's deadline writes (`tracedState`), then the worker's `except`
clause writes at worker end (after every trace event), then output capture,
final-globals snapshot (only if not timed out), and loop finalization. -/
def analyzeTrace (timeout : Nat) (run : WorkerRun) : TracerState :=
  let s := tracedState timeout run
  let s :=
    match run.uncaught with
    | some (t, m, tb) =>
        let tr := { s.trace with exception := some (t ++ ": " ++ m),
                                 exception_traceback := some tb }
        { s with trace := tr }
    | Option.none => s
  let tr := { s.trace with stdout_output := truncate_output run.stdout_raw,
                           stderr_output := truncate_output run.stderr_raw }
  let s := { s with trace := tr }
  let s := if run.finishedInTime then append_final_globals s run.finalGlobals else s
  finalize_loop_info s run.parsedLoops

/-- `DynamicAnalyzer.analyze`: assemble the trace and compile the result.
Every worker outcome — success, runtime exception, compile failure of the
source, timeout — flows into a populated result; the function has no error
channel, mirroring `analyze`'s catch-all handling around `exec`. -/
def analyze (timeout : Nat) (run : WorkerRun) : AnalyzeResult :=
  compile_results (analyzeTrace timeout run).trace

/-- Event-kind discriminator: is this an exception event? -/
def Event.isExc : Event → Bool
  | .exc _ _ _ _ => true
  | _ => false

/-- Event-kind discriminator: is this a call event? -/
def Event.isCall : Event → Bool
  | .call _ => true
  | _ => false

lemma handle_call_exception (s : TracerState) (f : Frame) :
    (handle_call s f).trace.exception = s.trace.exception ∧
    (handle_call s f).trace.timed_out = s.trace.timed_out := by
  unfold handle_call
  dsimp only
  repeat' split
  all_goals exact ⟨rfl, rfl⟩

lemma handle_line_exception (s : TracerState) (f : Frame) :
    (handle_line s f).trace.exception = s.trace.exception ∧
    (handle_line s f).trace.timed_out = s.trace.timed_out := by
  unfold handle_line
  dsimp only
  repeat' split
  all_goals exact ⟨rfl, rfl⟩

lemma handle_return_exception (s : TracerState) (f : Frame) (a : PyValue) :
    (handle_return s f a).trace.exception = s.trace.exception ∧
    (handle_return s f a).trace.timed_out = s.trace.timed_out := by
  unfold handle_return
  dsimp only
  repeat' split
  all_goals exact ⟨rfl, rfl⟩

lemma trace_calls_exception (s : TracerState) (e : Event) (he : e.isExc = false) :
    (trace_calls s e).trace.exception = s.trace.exception ∧
    (trace_calls s e).trace.timed_out = s.trace.timed_out := by
  unfold trace_calls
  split
  · exact ⟨rfl, rfl⟩
  split
  · exact ⟨rfl, rfl⟩
  cases e with
  | call f => exact handle_call_exception s f
  | line f => exact handle_line_exception s f
  | ret f a => exact handle_return_exception s f a
  | exc f t v tb => simp [Event.isExc] at he

lemma foldl_trace_calls_exception (evs : List Event) (s : TracerState)
    (he : ∀ e ∈ evs, e.isExc = false) :
    (evs.foldl trace_calls s).trace.exception = s.trace.exception ∧
    (evs.foldl trace_calls s).trace.timed_out = s.trace.timed_out := by
  induction evs generalizing s with
  | nil => exact ⟨rfl, rfl⟩
  | cons e rest ih =>
      have h1 := trace_calls_exception s e (he e (List.mem_cons_self e rest))
      have h2 := ih (trace_calls s e) (fun x hx => he x (List.mem_cons_of_mem e hx))
      exact ⟨h2.1.trans h1.1, h2.2.trans h1.2⟩

lemma tracedState_of_finished (timeout : Nat) (run : WorkerRun)
    (h1 : run.finishedInTime = true) :
    tracedState timeout run = processEvents run.events := by
  unfold tracedState
  rw [h1]
  rw [if_pos rfl]

lemma analyzeTrace_exception_of_clean (timeout : Nat) (run : WorkerRun)
    (h1 : run.finishedInTime = true) (h2 : run.uncaught = Option.none) :
    (analyzeTrace timeout run).trace.exception =
      (processEvents run.events).trace.exception ∧
    (analyzeTrace timeout run).trace.timed_out =
      (processEvents run.events).trace.timed_out := by
  unfold analyzeTrace
  rw [tracedState_of_finished timeout run h1, h1, h2]
  dsimp only
  cases hp : run.parsedLoops with
  | none => exact ⟨rfl, rfl⟩
  | some loops => exact ⟨rfl, rfl⟩

/-- Claim C1, amended: a syntactically valid program whose worker run
finishes in time with no exception escaping `exec` *and during which the
tracer observed no exception event at all* yields
`execution_successful = true` and `exception = null`.  (The original claim's
allowance for exceptions raised and handled inside the traced program fails:
the tracer's exception hook records them and nothing ever clears
`trace.exception`; see the counterexample.) -/
theorem C1_theorem (timeout : Nat) (run : WorkerRun)
    (h1 : run.finishedInTime = true) (h2 : run.uncaught = Option.none)
    (h3 : ∀ e ∈ run.events, e.isExc = false) :
    (analyze timeout run).execution_successful = true ∧
    (analyze timeout run).exception = Option.none := by
  obtain ⟨hex, hto⟩ := analyzeTrace_exception_of_clean timeout run h1 h2
  obtain ⟨he2, ht2⟩ := foldl_trace_calls_exception run.events {} h3
  unfold processEvents at hex hto
  constructor
  · show ((analyzeTrace timeout run).trace.exception.isNone &&
      !(analyzeTrace timeout run).trace.timed_out) = true
    rw [hex, he2, hto, ht2]
    rfl
  · show (analyzeTrace timeout run).trace.exception = Option.none
    rw [hex, he2]

/-- A run of `try: 1/0 except: pass` at module level: the division raises an
exception event in the traced frame, the handler swallows it, and the worker
completes normally (`uncaught = none`, in time). -/
def c1_run : WorkerRun :=
  { events := [.line { func_name := "<module>", lineno := 2, f_locals := [("x", .int 1)] },
      .exc { func_name := "<module>", lineno := 2 } "ZeroDivisionError" "division by zero" "tb"],
    uncaught := Option.none, finishedInTime := true }

/-- Claim C1 counterexample: the program completed without error (no escaping
exception, finished in time), yet the handled exception recorded by the
tracer makes `execution_successful = false` and `exception` non-null. -/
theorem C1_counterexample :
    (analyze 5 c1_run).execution_successful = false ∧
    (analyze 5 c1_run).exception = some "ZeroDivisionError: division by zero" := by
  exact ⟨rfl, rfl⟩

/-- A clean one-line run used as the concrete instance for `C1_theorem`. -/
def c1w_run : WorkerRun :=
  { events := [.line { func_name := "<module>", lineno := 2, f_locals := [("x", .int 1)] }],
    uncaught := Option.none, finishedInTime := true }

/-- Witness for `C1_theorem` at the concrete run `c1w_run`. -/
theorem C1_witness :
    (c1w_run.finishedInTime = true ∧ c1w_run.uncaught = Option.none ∧
      ∀ e ∈ c1w_run.events, e.isExc = false) ∧
    ((analyze 5 c1w_run).execution_successful = true ∧
      (analyze 5 c1w_run).exception = Option.none) :=
  ⟨⟨rfl, rfl, by decide⟩, C1_theorem 5 c1w_run rfl rfl (by decide)⟩

/-- Claim C10: the compiled result exposes the first 1000 flow positions with
a truncation flag that is true exactly when more were recorded, computes the
total/unique line counters over the full untruncated recording, and exposes
the first 500 snapshots with the analogous flag. -/
theorem C10_theorem (timeout : Nat) (run : WorkerRun) :
    (analyze timeout run).execution_flow =
      (analyzeTrace timeout run).trace.execution_flow.take 1000 ∧
    ((analyze timeout run).execution_flow_truncated = true ↔
      1000 < (analyzeTrace timeout run).trace.execution_flow.length) ∧
    (analyze timeout run).total_lines_executed =
      (analyzeTrace timeout run).trace.execution_flow.length ∧
    (analyze timeout run).unique_lines_executed =
      (analyzeTrace timeout run).trace.execution_flow.eraseDups.length ∧
    (analyze timeout run).variable_snapshots =
      ((analyzeTrace timeout run).trace.variable_snapshots.take 500).map
        (fun sn => ⟨sn.name, serialize_value sn.value, sn.value_type, sn.line, sn.scope⟩) ∧
    ((analyze timeout run).variable_snapshots_truncated = true ↔
      500 < (analyzeTrace timeout run).trace.variable_snapshots.length) := by
  refine ⟨rfl, ?_, rfl, rfl, rfl, ?_⟩ <;>
    simp [analyze, compile_results]

/-- A worker run on source text that does not compile: `exec` raises
`SyntaxError` before any code runs (no events), the worker's
`except Exception` clause catches it, and `ast.parse` in the loop finalizer
fails as well. -/
def syntax_error_run (msg tb : String) (g : List (String × PyValue)) : WorkerRun :=
  { events := [], uncaught := some ("SyntaxError", msg, tb), stdout_raw := "",
    stderr_raw := "", finishedInTime := true, finalGlobals := g,
    parsedLoops := Option.none }

/-- Claim C2, amended: invalid source is *not* detected before
instrumentation and does *not* propagate: the `SyntaxError` raised by
`exec`'s compile step is caught like any runtime exception and `analyze`
returns a populated result with the parse failure in its `exception` field,
`execution_successful = false`, and empty event lists. -/
theorem C2_theorem (timeout : Nat) (msg tb : String) (g : List (String × PyValue)) :
    (analyze timeout (syntax_error_run msg tb g)).exception =
      some ("SyntaxError" ++ ": " ++ msg) ∧
    (analyze timeout (syntax_error_run msg tb g)).execution_successful = false ∧
    (analyze timeout (syntax_error_run msg tb g)).timed_out = false ∧
    (analyze timeout (syntax_error_run msg tb g)).function_calls = [] ∧
    (analyze timeout (syntax_error_run msg tb g)).execution_flow = [] ∧
    (analyze timeout (syntax_error_run msg tb g)).loop_executions = [] :=
  ⟨rfl, rfl, rfl, rfl, rfl, rfl⟩

/-- Claim C2 counterexample: on unparsable source, `analyze` returns an
ordinary populated result whose `exception` field holds the syntax error —
the parse failure is not a propagated hard error distinct from the
populated-result path. -/
theorem C2_counterexample :
    (analyze 5 (syntax_error_run "invalid syntax" "tb" [])).exception =
      some "SyntaxError: invalid syntax" ∧
    (analyze 5 (syntax_error_run "invalid syntax" "tb" [])).execution_successful = false ∧
    (analyze 5 (syntax_error_run "invalid syntax" "tb" [])).timed_out = false :=
  ⟨rfl, rfl, rfl⟩

lemma handle_exception_timed_out (s : TracerState) (t v tb : String) :
    (handle_exception s t v tb).trace.timed_out = s.trace.timed_out := rfl

lemma trace_calls_timed_out (s : TracerState) (e : Event) :
    (trace_calls s e).trace.timed_out = s.trace.timed_out := by
  unfold trace_calls
  split
  · rfl
  split
  · rfl
  cases e with
  | call f => exact (handle_call_exception s f).2
  | line f => exact (handle_line_exception s f).2
  | ret f a => exact (handle_return_exception s f a).2
  | exc f t v tb => exact handle_exception_timed_out s t v tb

lemma foldl_trace_calls_timed_out (evs : List Event) (s : TracerState) :
    (evs.foldl trace_calls s).trace.timed_out = s.trace.timed_out := by
  induction evs generalizing s with
  | nil => rfl
  | cons e rest ih => rw [List.foldl_cons, ih, trace_calls_timed_out]

lemma trace_calls_exception_isSome (s : TracerState) (e : Event)
    (h : s.trace.exception.isSome = true) :
    (trace_calls s e).trace.exception.isSome = true := by
  unfold trace_calls
  split
  · exact h
  split
  · exact h
  cases e with
  | call f =>
      rw [(handle_call_exception s f).1]
      exact h
  | line f =>
      rw [(handle_line_exception s f).1]
      exact h
  | ret f a =>
      rw [(handle_return_exception s f a).1]
      exact h
  | exc f t v tb => rfl

lemma foldl_trace_calls_isSome (evs : List Event) (s : TracerState)
    (h : s.trace.exception.isSome = true) :
    (evs.foldl trace_calls s).trace.exception.isSome = true := by
  induction evs generalizing s with
  | nil => exact h
  | cons e rest ih =>
      rw [List.foldl_cons]
      exact ih (trace_calls s e) (trace_calls_exception_isSome s e h)

lemma tracedState_of_timeout (timeout : Nat) (run : WorkerRun)
    (h : run.finishedInTime = false) :
    tracedState timeout run =
      run.events_after_deadline.foldl trace_calls
        { processEvents run.events with
          trace := { (processEvents run.events).trace with
                     timed_out := true,
                     exception := some (timeout_message timeout) } } := by
  unfold tracedState
  rw [h]
  rw [if_neg (by simp)]

lemma analyzeTrace_tail (timeout : Nat) (run : WorkerRun)
    (h : run.finishedInTime = false) :
    (analyzeTrace timeout run).trace.timed_out =
      (tracedState timeout run).trace.timed_out ∧
    (analyzeTrace timeout run).trace.exception =
      (match run.uncaught with
        | some (t, m, _) => some (t ++ ": " ++ m)
        | Option.none => (tracedState timeout run).trace.exception) := by
  unfold analyzeTrace
  rw [h]
  dsimp only
  rcases hu : run.uncaught with _ | ⟨t, m, tb⟩ <;>
    cases hp : run.parsedLoops <;>
      simp [finalize_loop_info]

lemma analyzeTrace_timeout_fields (timeout : Nat) (run : WorkerRun)
    (h : run.finishedInTime = false) :
    (analyzeTrace timeout run).trace.timed_out = true ∧
    (analyzeTrace timeout run).trace.exception.isSome = true ∧
    (run.uncaught = Option.none →
      (∀ e ∈ run.events_after_deadline, e.isExc = false) →
      (analyzeTrace timeout run).trace.exception = some (timeout_message timeout)) := by
  have hT := tracedState_of_timeout timeout run h
  have hTto : (tracedState timeout run).trace.timed_out = true := by
    rw [hT, foldl_trace_calls_timed_out]
  have hTsome : (tracedState timeout run).trace.exception.isSome = true := by
    rw [hT]
    exact foldl_trace_calls_isSome _ _ rfl
  obtain ⟨w1, w2⟩ := analyzeTrace_tail timeout run h
  refine ⟨?_, ?_, ?_⟩
  · rw [w1, hTto]
  · rw [w2]
    rcases hu : run.uncaught with _ | ⟨t, m, tb⟩
    · exact hTsome
    · rfl
  · intro hun hne
    rw [w2, hun]
    show (tracedState timeout run).trace.exception = some (timeout_message timeout)
    rw [hT, (foldl_trace_calls_exception _ _ hne).1]

lemma analyzeTrace_stdout (timeout : Nat) (run : WorkerRun) :
    (analyzeTrace timeout run).trace.stdout_output = truncate_output run.stdout_raw := by
  unfold analyzeTrace
  cases hf : run.finishedInTime <;>
    rcases hu : run.uncaught with _ | ⟨t, m, tb⟩ <;>
      cases hp : run.parsedLoops <;>
        simp [finalize_loop_info, append_final_globals]

/-- Claim C9, amended: when a run times out, `exception` is never null — the
supervisor writes the `TimeoutError` message naming the configured limit at
the deadline, and that exact message survives only while the abandoned,
still-traced worker neither delivers a later exception event (even one the
program handles itself) nor ends with an escaping exception; any of those
overwrites the string but keeps the field non-null. -/
theorem C9_theorem (timeout : Nat) (run : WorkerRun)
    (h : run.finishedInTime = false) :
    (analyze timeout run).timed_out = true ∧
    (analyze timeout run).exception.isSome = true ∧
    (run.uncaught = Option.none →
      (∀ e ∈ run.events_after_deadline, e.isExc = false) →
      (analyze timeout run).exception = some (timeout_message timeout)) :=
  analyzeTrace_timeout_fields timeout run h

/-- A pure timeout run: the worker is still executing at the deadline,
delivers no further events, and never records an escaping exception. -/
def c9w_run : WorkerRun := { events := [], finishedInTime := false }

/-- Witness for `C9_theorem` at the concrete run `c9w_run`. -/
theorem C9_witness :
    c9w_run.finishedInTime = false ∧
    ((analyze 5 c9w_run).timed_out = true ∧
      (analyze 5 c9w_run).exception.isSome = true ∧
      (c9w_run.uncaught = Option.none →
        (∀ e ∈ c9w_run.events_after_deadline, e.isExc = false) →
        (analyze 5 c9w_run).exception = some (timeout_message 5))) :=
  ⟨rfl, C9_theorem 5 c9w_run rfl⟩

/-- A run of `time.sleep(7); try: 1/0 except: pass` under a 5-second
timeout: the worker is still running at the deadline, and after it the
still-traced program raises and handles a `ZeroDivisionError`, whose
exception event overwrites the supervisor's `TimeoutError` string; nothing
escapes `exec` (`uncaught = none`). -/
def c9_run : WorkerRun :=
  { events := [],
    events_after_deadline := [.exc { func_name := "<module>", lineno := 3 }
      "ZeroDivisionError" "division by zero" "tb"],
    uncaught := Option.none, finishedInTime := false }

/-- Claim C9 counterexample: a timed-out run with no escaping exception
whose final `exception` is nevertheless not the `TimeoutError` string
naming the limit — a post-deadline handled-exception event of the abandoned
worker overwrote it — refuting the claim that on timeout the field is set
to a `TimeoutError`-style string. -/
theorem C9_counterexample :
    c9_run.uncaught = Option.none ∧
    (analyze 5 c9_run).timed_out = true ∧
    (analyze 5 c9_run).exception = some "ZeroDivisionError: division by zero" ∧
    (analyze 5 c9_run).exception ≠ some (timeout_message 5) :=
  ⟨rfl, rfl, rfl, by decide⟩

/-- Agreement of the truncated output buffer with the raw capture on every
prefix below the output ceiling. -/
lemma truncate_output_take (s : String) (n : Nat) (hn : n ≤ MAX_OUTPUT_SIZE) :
    (truncate_output s).data.take n = s.data.take n := by
  unfold truncate_output
  split
  · show (pySlice s MAX_OUTPUT_SIZE).data.take n = _
    unfold pySlice
    show (s.data.take MAX_OUTPUT_SIZE).take n = _
    rw [List.take_take, Nat.min_eq_left hn]
  · rfl

/-- Claim C3: a run that exceeds the wall-clock deadline yields
`timed_out = true`, `execution_successful = false`, and a `stdout` field
that agrees with the raw captured output on every prefix of length at most
the output ceiling — in particular it contains whatever the program wrote
before the deadline. -/
theorem C3_theorem (timeout : Nat) (run : WorkerRun) (n : Nat)
    (h : run.finishedInTime = false) (hn : n ≤ MAX_OUTPUT_SIZE) :
    (analyze timeout run).timed_out = true ∧
    (analyze timeout run).execution_successful = false ∧
    (analyze timeout run).stdout.data.take n = run.stdout_raw.data.take n := by
  obtain ⟨hto, hsome, -⟩ := analyzeTrace_timeout_fields timeout run h
  refine ⟨hto, ?_, ?_⟩
  · show ((analyzeTrace timeout run).trace.exception.isNone &&
      !(analyzeTrace timeout run).trace.timed_out) = false
    rw [hto]
    simp
  · show ((analyzeTrace timeout run).trace.stdout_output).data.take n = _
    rw [analyzeTrace_stdout]
    exact truncate_output_take run.stdout_raw n hn

/-- A run that times out after printing a short line. -/
def c3w_run : WorkerRun :=
  { events := [], stdout_raw := "tick\n", finishedInTime := false }

/-- Witness for `C3_theorem` at the concrete run `c3w_run` with prefix
length 4. -/
theorem C3_witness :
    (c3w_run.finishedInTime = false ∧ 4 ≤ MAX_OUTPUT_SIZE) ∧
    ((analyze 5 c3w_run).timed_out = true ∧
      (analyze 5 c3w_run).execution_successful = false ∧
      (analyze 5 c3w_run).stdout.data.take 4 = c3w_run.stdout_raw.data.take 4) :=
  ⟨⟨rfl, by decide⟩, C3_theorem 5 c3w_run 4 rfl (by decide)⟩

/-- The over-cap branch of `_safe_serialize` for Python lists, at any
recursion depth. -/
lemma safe_serialize_list_over (xs : List PyValue) (d : Nat) (h : 20 < xs.length) :
    safe_serialize (.list xs) (d + 1) =
      .list ((xs.take 20).map (fun v => safe_serialize v d) ++
        [.str ("... (" ++ toString (xs.length - 20) ++ " more items)")]) := by
  rw [safe_serialize]
  rw [if_pos h]

/-- Claim C6, amended: serializing a list with more elements than the item
cap yields exactly the cap's worth of serialized elements plus one trailing
omitted-count marker — but re-serializing that truncated representation is
*not* idempotent: the truncated value has 21 elements, so the second pass
truncates again, dropping the original marker and appending a marker that
claims exactly one item was omitted.  (Re-truncated text likewise gets a
fresh total-length marker.) -/
theorem C6_theorem (xs : List PyValue) (h : 20 < xs.length) :
    safe_serialize (.list xs) 3 =
      .list ((xs.take 20).map (fun v => safe_serialize v 2) ++
        [.str ("... (" ++ toString (xs.length - 20) ++ " more items)")]) ∧
    safe_serialize (safe_serialize (.list xs) 3) 3 =
      .list ((xs.take 20).map (fun v => safe_serialize (safe_serialize v 2) 2) ++
        [.str "... (1 more items)"]) := by
  have hA : ((xs.take 20).map (fun v => safe_serialize v 2)).length = 20 := by
    rw [List.length_map, List.length_take]
    omega
  have h1 : safe_serialize (.list xs) 3 =
      .list ((xs.take 20).map (fun v => safe_serialize v 2) ++
        [.str ("... (" ++ toString (xs.length - 20) ++ " more items)")]) :=
    safe_serialize_list_over xs 2 h
  refine ⟨h1, ?_⟩
  rw [h1]
  have hL : ((xs.take 20).map (fun v => safe_serialize v 2) ++
      [PyValue.str ("... (" ++ toString (xs.length - 20) ++ " more items)")]).length = 21 := by
    rw [List.length_append, hA]
    rfl
  rw [safe_serialize_list_over _ 2 (by rw [hL]; norm_num)]
  rw [hL]
  rw [List.take_left' hA]
  rw [List.map_map]
  rfl

/-- A Python list of 22 integers. -/
def c6_list : List PyValue := (List.range 22).map fun i => PyValue.int i

/-- Projection used to tell two serialized lists apart by their trailing
marker string. -/
def last_marker : PyValue → String
  | .list xs =>
      match xs.getLast? with
      | some (.str s) => s
      | _ => ""
  | _ => ""

/-- Claim C6 counterexample: re-serializing the truncated representation of
a 22-element list changes it — the trailing marker switches from
`"... (2 more items)"` to `"... (1 more items)"` — refuting the claimed
idempotence. -/
theorem C6_counterexample :
    safe_serialize (safe_serialize (.list c6_list) 3) 3 ≠
      safe_serialize (.list c6_list) 3 := by
  intro h
  have h2 := congrArg last_marker h
  rw [show last_marker (safe_serialize (safe_serialize (.list c6_list) 3) 3) =
        "... (1 more items)" from rfl,
      show last_marker (safe_serialize (.list c6_list) 3) =
        "... (2 more items)" from rfl] at h2
  exact absurd h2 (by decide)

/-- A Python list of 25 integers, the concrete instance for `C6_theorem`. -/
def c6w_list : List PyValue := (List.range 25).map fun i => PyValue.int i

/-- Witness for `C6_theorem` at the concrete 25-element list. -/
theorem C6_witness :
    20 < c6w_list.length ∧
    (safe_serialize (.list c6w_list) 3 =
      .list ((c6w_list.take 20).map (fun v => safe_serialize v 2) ++
        [.str ("... (" ++ toString (c6w_list.length - 20) ++ " more items)")]) ∧
    safe_serialize (safe_serialize (.list c6w_list) 3) 3 =
      .list ((c6w_list.take 20).map (fun v => safe_serialize (safe_serialize v 2) 2) ++
        [.str "... (1 more items)"])) :=
  ⟨by decide, C6_theorem c6w_list (by decide)⟩

lemma fill_return_length (name : String) (v : PyValue) (l : List FunctionCall) :
    (fill_return name v l).length = l.length := by
  induction l with
  | nil => rfl
  | cons c rest ih =>
      unfold fill_return
      split
      · simp
      · simp [ih]

lemma fill_return_getElem? (name : String) (v : PyValue) :
    ∀ (l : List FunctionCall) (i : Nat) (c : FunctionCall),
      l[i]? = some c → c.return_value.isNone = false →
      (fill_return name v l)[i]? = some c := by
  intro l
  induction l with
  | nil => intro i c h hc; simp at h
  | cons hd rest ih =>
      intro i c h hc
      unfold fill_return
      split
      · rename_i hhd
        cases i with
        | zero =>
            simp at h
            rw [← h] at hc
            rw [hhd.2] at hc
            simp at hc
        | succ j =>
            simp at h ⊢
            exact h
      · cases i with
        | zero => simpa using h
        | succ j =>
            simp at h ⊢
            exact ih j c h hc

lemma index_lt_of_getElem? {α : Type} {l : List α} {i : Nat} {c : α}
    (h : l[i]? = some c) : i < l.length := by
  rcases Nat.lt_or_ge i l.length with h' | h'
  · exact h'
  · rw [List.getElem?_eq_none h'] at h
    exact absurd h (by simp)

lemma handle_return_calls_getElem? (s : TracerState) (f : Frame) (a : PyValue)
    (i : Nat) (c : FunctionCall)
    (h : (s.trace.function_calls)[i]? = some c)
    (hc : c.return_value.isNone = false) :
    ((handle_return s f a).trace.function_calls)[i]? = some c := by
  have hi : i < s.trace.function_calls.length := index_lt_of_getElem? h
  unfold handle_return
  dsimp only
  split
  · exact h
  · set l := s.trace.function_calls with hl
    set M := fill_return f.func_name (safe_serialize a 3) l.reverse with hM
    have hMlen : M.length = l.length := by
      rw [hM, fill_return_length, List.length_reverse]
    have h1 : l.reverse[l.length - 1 - i]? = l[i]? :=
      List.getElem?_reverse' (l.length - 1 - i) i (by omega)
    have h2 : M[l.length - 1 - i]? = some c := by
      apply fill_return_getElem?
      · rw [h1]; exact h
      · exact hc
    show M.reverse[i]? = some c
    rw [List.getElem?_reverse (by omega : i < M.length)]
    rw [hMlen]
    exact h2

lemma handle_call_calls (s : TracerState) (f : Frame) :
    (handle_call s f).trace.function_calls = s.trace.function_calls ∨
    ∃ r, (handle_call s f).trace.function_calls = s.trace.function_calls ++ [r] := by
  unfold handle_call
  dsimp only
  repeat' split
  · left; rfl
  all_goals (right; exact ⟨_, rfl⟩)

lemma handle_line_calls (s : TracerState) (f : Frame) :
    (handle_line s f).trace.function_calls = s.trace.function_calls := by
  unfold handle_line
  dsimp only
  repeat' split
  all_goals rfl

theorem C5_theorem (s : TracerState) (e : Event) (i : Nat) (c : FunctionCall)
    (h : (s.trace.function_calls)[i]? = some c)
    (hc : c.return_value.isNone = false) :
    ((trace_calls s e).trace.function_calls)[i]? = some c := by
  have hi : i < s.trace.function_calls.length := index_lt_of_getElem? h
  unfold trace_calls
  split
  · exact h
  split
  · exact h
  cases e with
  | call f =>
      rcases handle_call_calls s f with heq | ⟨r, heq⟩
      · rw [heq]; exact h
      · rw [heq, List.getElem?_append_left hi]; exact h
  | line f => rw [handle_line_calls]; exact h
  | ret f a => exact handle_return_calls_getElem? s f a i c h hc
  | exc f t v tb => exact h


/-- A record already holding a non-`None` return value, for the witness. -/
def c5w_rec : FunctionCall :=
  { function_name := "g", line := 4, arguments := [], return_value := .int 7,
    stack_depth := 2, is_recursive_call := false }

/-- A tracer state holding `c5w_rec`, for the witness. -/
def c5w_state : TracerState :=
  { trace := { function_calls := [c5w_rec] } }

/-- A return event for the same function name, for the witness. -/
def c5w_event : Event := .ret { func_name := "g", lineno := 4 } (.int 9)

/-- Witness for `C5_theorem`: a further return event for the same function
name leaves the already-filled record untouched. -/
theorem C5_witness :
    ((c5w_state.trace.function_calls)[0]? = some c5w_rec ∧
      c5w_rec.return_value.isNone = false) ∧
    ((trace_calls c5w_state c5w_event).trace.function_calls)[0]? = some c5w_rec :=
  ⟨⟨rfl, rfl⟩, C5_theorem c5w_state c5w_event 0 c5w_rec rfl rfl⟩

/-- Events of `def f(n): (n == 2 ? (f(1); return 5) : return None); f(2)`:
module call, call `f(2)`, nested call `f(1)`, `f(1)` returns `None`,
`f(2)` returns `5`. -/
def c5_events : List Event :=
  [.call { func_name := "<module>", lineno := 1 },
   .call { func_name := "f", lineno := 1, f_locals := [("n", .int 2)], arg_names := ["n"] },
   .call { func_name := "f", lineno := 1, f_locals := [("n", .int 1)], arg_names := ["n"] },
   .ret { func_name := "f", lineno := 4 } .none,
   .ret { func_name := "f", lineno := 3 } (.int 5)]

/-- Claim C5 counterexample: after the fourth event the inner call's record
was filled (with the returned `None`); the fifth event — the outer return of
`5` — finds that record's value still `None` and overwrites it, leaving the
outer record unset.  The claim predicts final return values `[5, None]`
(outer filled by its own return, inner keeping its recorded `None`); the
code produces `[None, 5]`: the inner record is assigned twice and the
already-filled record is overwritten. -/
theorem C5_counterexample :
    ((processEvents (c5_events.take 4)).trace.function_calls.map
      fun c => c.return_value) = [PyValue.none, PyValue.none] ∧
    ((processEvents c5_events).trace.function_calls.map
      fun c => c.return_value) = [PyValue.none, PyValue.int 5] :=
  ⟨rfl, rfl⟩

lemma trace_calls_of_stopped (s : TracerState) (e : Event)
    (h : s.stopped = true) : trace_calls s e = s := by
  unfold trace_calls
  rw [if_pos h]

lemma stopped_of_trace_calls (s : TracerState) (e : Event)
    (h : (trace_calls s e).stopped = false) : s.stopped = false := by
  by_contra hs
  rw [Bool.not_eq_false] at hs
  rw [trace_calls_of_stopped s e hs] at h
  rw [hs] at h
  exact absurd h (by simp)

lemma trace_calls_not_stopped (s : TracerState) (e : Event)
    (h1 : s.stopped = false)
    (h2 : ¬(MAX_SNAPSHOTS ≤ s.trace.variable_snapshots.length ∨
        MAX_EXECUTION_FLOW ≤ s.trace.execution_flow.length ∨
        MAX_FUNCTION_CALLS ≤ s.trace.function_calls.length)) :
    trace_calls s e =
      match e with
      | .call f => handle_call s f
      | .line f => handle_line s f
      | .ret f a => handle_return s f a
      | .exc _ t v tb => handle_exception s t v tb := by
  unfold trace_calls
  rw [if_neg (by simp [h1]), if_neg h2]

lemma guard_false_of_trace_calls (s : TracerState) (e : Event)
    (h1 : s.stopped = false)
    (h : (trace_calls s e).stopped = false) :
    ¬(MAX_SNAPSHOTS ≤ s.trace.variable_snapshots.length ∨
      MAX_EXECUTION_FLOW ≤ s.trace.execution_flow.length ∨
      MAX_FUNCTION_CALLS ≤ s.trace.function_calls.length) := by
  intro hg
  have : (trace_calls s e).stopped = true := by
    unfold trace_calls
    rw [if_neg (by simp [h1]), if_pos hg]
  rw [this] at h
  exact absurd h (by simp)

lemma handle_call_counters (s : TracerState) (f : Frame) :
    (handle_call s f).loop_counters = s.loop_counters ∧
    (handle_call s f).visited_lines = s.visited_lines ∧
    (handle_call s f).trace.loop_executions = s.trace.loop_executions := by
  unfold handle_call
  dsimp only
  repeat' split
  all_goals exact ⟨rfl, rfl, rfl⟩

lemma handle_return_counters (s : TracerState) (f : Frame) (a : PyValue) :
    (handle_return s f a).loop_counters = s.loop_counters ∧
    (handle_return s f a).visited_lines = s.visited_lines ∧
    (handle_return s f a).trace.loop_executions = s.trace.loop_executions := by
  unfold handle_return
  dsimp only
  repeat' split
  all_goals exact ⟨rfl, rfl, rfl⟩

lemma handle_line_counters (s : TracerState) (f : Frame) :
    ((handle_line s f).loop_counters =
        (if f.lineno ∈ s.visited_lines then bumpCounter s.loop_counters f.lineno
         else s.loop_counters)) ∧
    ((handle_line s f).visited_lines =
        (if f.lineno ∈ s.visited_lines then s.visited_lines
         else s.visited_lines ++ [f.lineno])) ∧
    (handle_line s f).trace.loop_executions = s.trace.loop_executions := by
  unfold handle_line
  dsimp only
  by_cases hv : f.lineno ∈ s.visited_lines <;>
    simp only [hv, if_true, if_false] <;>
      repeat' split
  all_goals simp_all

lemma counterValue_bump_same (cs : List (Nat × Nat)) (l : Nat) :
    counterValue (bumpCounter cs l) l = counterValue cs l + 1 := by
  induction cs with
  | nil => simp [bumpCounter, counterValue]
  | cons p rest ih =>
      rcases p with ⟨a, b⟩
      by_cases hal : a = l
      · subst hal
        simp [bumpCounter, counterValue]
      · simp [bumpCounter, counterValue, hal, ih]

lemma counterValue_bump_other (cs : List (Nat × Nat)) (l x : Nat) (h : x ≠ l) :
    counterValue (bumpCounter cs l) x = counterValue cs x := by
  induction cs with
  | nil => simp [bumpCounter, counterValue, Ne.symm h]
  | cons p rest ih =>
      rcases p with ⟨a, b⟩
      by_cases hal : a = l
      · subst hal
        simp [bumpCounter, counterValue, Ne.symm h]
      · simp only [bumpCounter, if_neg hal, counterValue]
        by_cases hax : a = x <;> simp [hax, ih]

/-- The number of line events at line `l` in an event stream. -/
def lineCount (evs : List Event) (l : Nat) : Nat :=
  evs.countP fun e =>
    match e with
    | .line f => f.lineno == l
    | _ => false

lemma lineCount_append (e1 e2 : List Event) (l : Nat) :
    lineCount (e1 ++ e2) l = lineCount e1 l + lineCount e2 l :=
  List.countP_append _ _ _

lemma lineCount_single_line (f : Frame) (l : Nat) :
    lineCount [Event.line f] l = if f.lineno = l then 1 else 0 := by
  simp only [lineCount, List.countP_cons, List.countP_nil]
  by_cases hfl : f.lineno = l <;> simp [hfl]

lemma processEvents_counters (evs : List Event)
    (h : (evs.foldl trace_calls ({} : TracerState)).stopped = false) (l : Nat) :
    counterValue (evs.foldl trace_calls ({} : TracerState)).loop_counters l =
      lineCount evs l - 1 ∧
    (l ∈ (evs.foldl trace_calls ({} : TracerState)).visited_lines ↔
      0 < lineCount evs l) := by
  induction evs using List.reverseRecOn with
  | nil => simp [lineCount, counterValue]
  | append_singleton evs e ih =>
      rw [List.foldl_append] at h ⊢
      simp only [List.foldl_cons, List.foldl_nil] at h ⊢
      set S := evs.foldl trace_calls ({} : TracerState) with hS
      have hSstop : S.stopped = false := stopped_of_trace_calls S e h
      obtain ⟨ih1, ih2⟩ := ih hSstop
      have hg := guard_false_of_trace_calls S e hSstop h
      rw [trace_calls_not_stopped S e hSstop hg] at h ⊢
      cases e with
      | call f =>
          obtain ⟨hc1, hc2, -⟩ := handle_call_counters S f
          rw [hc1, hc2, lineCount_append]
          rw [show lineCount [Event.call f] l = 0 from rfl, Nat.add_zero]
          exact ⟨ih1, ih2⟩
      | ret f a =>
          obtain ⟨hc1, hc2, -⟩ := handle_return_counters S f a
          rw [hc1, hc2, lineCount_append]
          rw [show lineCount [Event.ret f a] l = 0 from rfl, Nat.add_zero]
          exact ⟨ih1, ih2⟩
      | exc f t v tb =>
          rw [lineCount_append]
          rw [show lineCount [Event.exc f t v tb] l = 0 from rfl, Nat.add_zero]
          exact ⟨ih1, ih2⟩
      | line f =>
          obtain ⟨hc1, hc2, -⟩ := handle_line_counters S f
          rw [hc1, hc2, lineCount_append, lineCount_single_line]
          by_cases hv : f.lineno ∈ S.visited_lines
          · rw [if_pos hv, if_pos hv]
            by_cases hfl : f.lineno = l
            · subst hfl
              have hpos : 0 < lineCount evs f.lineno := ih2.mp hv
              rw [if_pos rfl, counterValue_bump_same, ih1]
              constructor
              · omega
              · simp [hv]
            · rw [if_neg hfl,
                counterValue_bump_other _ _ _ (fun hx => hfl (Eq.symm hx))]
              constructor
              · rw [ih1, Nat.add_zero]
              · rw [Nat.add_zero]
                exact ih2
          · rw [if_neg hv, if_neg hv]
            by_cases hfl : f.lineno = l
            · subst hfl
              have hzero : lineCount evs f.lineno = 0 := by
                by_contra hne
                exact hv (ih2.mpr (Nat.pos_of_ne_zero hne))
              rw [if_pos rfl, ih1, hzero]
              constructor
              · rfl
              · simp [List.mem_append]
            · rw [if_neg hfl, Nat.add_zero]
              constructor
              · exact ih1
              · rw [List.mem_append]
                simp only [List.mem_singleton]
                constructor
                · rintro (hmem | hmem)
                  · exact ih2.mp hmem
                  · exact absurd hmem.symm hfl
                · intro hp
                  exact Or.inl (ih2.mpr hp)

lemma trace_calls_loop_executions (s : TracerState) (e : Event) :
    (trace_calls s e).trace.loop_executions = s.trace.loop_executions := by
  unfold trace_calls
  split
  · rfl
  split
  · rfl
  cases e with
  | call f => exact (handle_call_counters s f).2.2
  | line f => exact (handle_line_counters s f).2.2
  | ret f a => exact (handle_return_counters s f a).2.2
  | exc f t v tb => rfl

lemma foldl_trace_calls_loop_executions (evs : List Event) (s : TracerState) :
    (evs.foldl trace_calls s).trace.loop_executions = s.trace.loop_executions := by
  induction evs generalizing s with
  | nil => rfl
  | cons e rest ih =>
      rw [List.foldl_cons, ih, trace_calls_loop_executions]

/-- Claim C7: with the recording ceilings never exhausted during the run,
the loop correlator produces exactly one record per parsed loop construct,
whose iteration count is the number of *revisits* of the loop's header line
(one less than the number of line events there; 0 when the header line was
visited at most once, including when the loop was never reached), and a
failed structural parse yields an empty loop-record list instead of an
error. -/
theorem C7_theorem (evs : List Event) (loops : List LoopSyntax)
    (h : (processEvents evs).stopped = false) :
    (finalize_loop_info (processEvents evs) (some loops)).trace.loop_executions =
      loops.map (fun L =>
        { line_start := L.lineno,
          iteration_count := lineCount evs L.lineno - 1,
          loop_type := if L.is_for then "for" else "while" }) ∧
    (finalize_loop_info (processEvents evs) Option.none).trace.loop_executions = [] := by
  have hempty : (processEvents evs).trace.loop_executions = [] :=
    foldl_trace_calls_loop_executions evs {}
  constructor
  · unfold finalize_loop_info
    dsimp only
    rw [hempty, List.nil_append]
    apply List.map_congr_left
    intro L hL
    have hc : counterValue (processEvents evs).loop_counters L.lineno =
        lineCount evs L.lineno - 1 :=
      (processEvents_counters evs h L.lineno).1
    rw [hc]
  · exact hempty

/-- Events of a run with a three-iteration loop headed at line 2 (four line
events there: first visit plus three revisits is modelled as line events 2,
2, 2, 2 — three revisits) and a loop at line 7 never reached. -/
def c7_events : List Event :=
  [.line { func_name := "<module>", lineno := 1 },
   .line { func_name := "<module>", lineno := 2 },
   .line { func_name := "<module>", lineno := 3 },
   .line { func_name := "<module>", lineno := 2 },
   .line { func_name := "<module>", lineno := 3 },
   .line { func_name := "<module>", lineno := 2 }]

/-- The structural loop list: a `for` at line 2 and a `while` at line 7. -/
def c7_loops : List LoopSyntax := [⟨2, true⟩, ⟨7, false⟩]

/-- Witness for `C7_theorem` at the concrete run `c7_events`. -/
theorem C7_witness :
    (processEvents c7_events).stopped = false ∧
    ((finalize_loop_info (processEvents c7_events) (some c7_loops)).trace.loop_executions =
      c7_loops.map (fun L =>
        { line_start := L.lineno,
          iteration_count := lineCount c7_events L.lineno - 1,
          loop_type := if L.is_for then "for" else "while" }) ∧
    (finalize_loop_info (processEvents c7_events) Option.none).trace.loop_executions = []) :=
  ⟨rfl, C7_theorem c7_events c7_loops rfl⟩


lemma snapshot_loop_le (scope : String) (line : Nat)
    (bs : List (String × PyValue)) :
    ∀ acc : List VariableSnapshot, acc.length < MAX_SNAPSHOTS →
      (snapshot_loop scope line bs acc).length ≤ MAX_SNAPSHOTS := by
  induction bs with
  | nil =>
      intro acc h
      exact Nat.le_of_lt h
  | cons b rest ih =>
      intro acc h
      rcases b with ⟨n, v⟩
      unfold snapshot_loop
      split
      · dsimp only
        split
        · rename_i hge
          simp only [List.length_append, List.length_cons, List.length_nil]
          omega
        · rename_i hlt
          apply ih
          simp only [List.length_append, List.length_cons, List.length_nil] at hlt ⊢
          omega
      · exact ih acc h

lemma handle_call_lengths (s : TracerState) (f : Frame) :
    (handle_call s f).trace.variable_snapshots = s.trace.variable_snapshots ∧
    (handle_call s f).trace.execution_flow = s.trace.execution_flow ∧
    (handle_call s f).trace.function_calls.length ≤
      s.trace.function_calls.length + 1 := by
  refine ⟨?_, ?_, ?_⟩
  · unfold handle_call
    dsimp only
    repeat' split
    all_goals rfl
  · unfold handle_call
    dsimp only
    repeat' split
    all_goals rfl
  · rcases handle_call_calls s f with heq | ⟨r, heq⟩
    · rw [heq]
      omega
    · rw [heq]
      simp

lemma handle_line_lengths (s : TracerState) (f : Frame)
    (h1 : s.trace.variable_snapshots.length ≤ MAX_SNAPSHOTS)
    (h2 : s.trace.execution_flow.length ≤ MAX_EXECUTION_FLOW) :
    (handle_line s f).trace.variable_snapshots.length ≤ MAX_SNAPSHOTS ∧
    (handle_line s f).trace.execution_flow.length ≤ MAX_EXECUTION_FLOW := by
  constructor
  · unfold handle_line
    dsimp only
    split <;> split <;>
      (split
       · apply snapshot_loop_le
         simp_all
       · simp_all)
  · unfold handle_line
    dsimp only
    repeat' split
    all_goals simp_all
    all_goals omega

lemma handle_return_lengths (s : TracerState) (f : Frame) (a : PyValue) :
    (handle_return s f a).trace.variable_snapshots = s.trace.variable_snapshots ∧
    (handle_return s f a).trace.execution_flow = s.trace.execution_flow ∧
    (handle_return s f a).trace.function_calls.length =
      s.trace.function_calls.length := by
  refine ⟨?_, ?_, ?_⟩
  · unfold handle_return
    dsimp only
    repeat' split
    all_goals rfl
  · unfold handle_return
    dsimp only
    repeat' split
    all_goals rfl
  · unfold handle_return
    dsimp only
    split
    · rfl
    · simp [fill_return_length]

lemma trace_calls_bounds (s : TracerState) (e : Event)
    (h : s.trace.variable_snapshots.length ≤ MAX_SNAPSHOTS ∧
      s.trace.execution_flow.length ≤ MAX_EXECUTION_FLOW ∧
      s.trace.function_calls.length ≤ MAX_FUNCTION_CALLS) :
    (trace_calls s e).trace.variable_snapshots.length ≤ MAX_SNAPSHOTS ∧
    (trace_calls s e).trace.execution_flow.length ≤ MAX_EXECUTION_FLOW ∧
    (trace_calls s e).trace.function_calls.length ≤ MAX_FUNCTION_CALLS := by
  unfold trace_calls
  split
  · exact h
  split
  · exact h
  rename_i hg
  push_neg at hg
  obtain ⟨hg1, hg2, hg3⟩ := hg
  cases e with
  | call f =>
      dsimp only
      obtain ⟨e1, e2, e3⟩ := handle_call_lengths s f
      rw [e1, e2]
      exact ⟨h.1, h.2.1, by omega⟩
  | line f =>
      dsimp only
      obtain ⟨e1, e2⟩ := handle_line_lengths s f h.1 h.2.1
      exact ⟨e1, e2, by rw [handle_line_calls]; exact h.2.2⟩
  | ret f a =>
      dsimp only
      obtain ⟨e1, e2, e3⟩ := handle_return_lengths s f a
      rw [e1, e2, e3]
      exact h
  | exc f t v tb => exact h

lemma processEvents_bounds (evs : List Event) :
    (processEvents evs).trace.variable_snapshots.length ≤ MAX_SNAPSHOTS ∧
    (processEvents evs).trace.execution_flow.length ≤ MAX_EXECUTION_FLOW ∧
    (processEvents evs).trace.function_calls.length ≤ MAX_FUNCTION_CALLS := by
  unfold processEvents
  induction evs using List.reverseRecOn with
  | nil =>
      refine ⟨?_, ?_, ?_⟩ <;> simp [MAX_SNAPSHOTS, MAX_EXECUTION_FLOW, MAX_FUNCTION_CALLS]
  | append_singleton evs e ih =>
      rw [List.foldl_append]
      simp only [List.foldl_cons, List.foldl_nil]
      exact trace_calls_bounds _ e ih

lemma foldl_trace_calls_bounds (evs : List Event) (s : TracerState)
    (h : s.trace.variable_snapshots.length ≤ MAX_SNAPSHOTS ∧
      s.trace.execution_flow.length ≤ MAX_EXECUTION_FLOW ∧
      s.trace.function_calls.length ≤ MAX_FUNCTION_CALLS) :
    (evs.foldl trace_calls s).trace.variable_snapshots.length ≤ MAX_SNAPSHOTS ∧
    (evs.foldl trace_calls s).trace.execution_flow.length ≤ MAX_EXECUTION_FLOW ∧
    (evs.foldl trace_calls s).trace.function_calls.length ≤ MAX_FUNCTION_CALLS := by
  induction evs generalizing s with
  | nil => exact h
  | cons e rest ih => exact ih (trace_calls s e) (trace_calls_bounds s e h)

lemma tracedState_bounds (timeout : Nat) (run : WorkerRun) :
    (tracedState timeout run).trace.variable_snapshots.length ≤ MAX_SNAPSHOTS ∧
    (tracedState timeout run).trace.execution_flow.length ≤ MAX_EXECUTION_FLOW ∧
    (tracedState timeout run).trace.function_calls.length ≤ MAX_FUNCTION_CALLS := by
  unfold tracedState
  cases hf : run.finishedInTime
  · rw [if_neg (by simp)]
    dsimp only
    exact foldl_trace_calls_bounds _ _ (processEvents_bounds run.events)
  · rw [if_pos rfl]
    exact processEvents_bounds run.events

lemma analyzeTrace_lists (timeout : Nat) (run : WorkerRun) :
    (analyzeTrace timeout run).trace.variable_snapshots.length ≤
      (tracedState timeout run).trace.variable_snapshots.length +
        (run.finalGlobals.filter fun p => final_globals_pass p.1).length ∧
    (analyzeTrace timeout run).trace.execution_flow =
      (tracedState timeout run).trace.execution_flow ∧
    (analyzeTrace timeout run).trace.function_calls =
      (tracedState timeout run).trace.function_calls := by
  unfold analyzeTrace append_final_globals
  cases hf : run.finishedInTime <;>
    rcases hu : run.uncaught with _ | ⟨t, m, tb⟩ <;>
      cases hp : run.parsedLoops <;>
        simp [finalize_loop_info, List.length_append, List.length_map]

/-- Claim C4, amended: during tracing each bounded collection never exceeds
its configured ceiling (the callback trips into the stopped state first),
and the flow and call-record collections stay within their ceilings in the
final trace as well; but the post-run final-global-variable snapshot loop
performs no ceiling check, so `variable_snapshots` is only bounded by
`MAX_SNAPSHOTS` plus the number of retained globals and can exceed
`MAX_SNAPSHOTS` (see the counterexample). -/
theorem C4_theorem :
    (∀ evs : List Event,
      (processEvents evs).trace.variable_snapshots.length ≤ MAX_SNAPSHOTS ∧
      (processEvents evs).trace.execution_flow.length ≤ MAX_EXECUTION_FLOW ∧
      (processEvents evs).trace.function_calls.length ≤ MAX_FUNCTION_CALLS) ∧
    (∀ (timeout : Nat) (run : WorkerRun),
      (analyzeTrace timeout run).trace.variable_snapshots.length ≤
        MAX_SNAPSHOTS +
          (run.finalGlobals.filter fun p => final_globals_pass p.1).length ∧
      (analyzeTrace timeout run).trace.execution_flow.length ≤ MAX_EXECUTION_FLOW ∧
      (analyzeTrace timeout run).trace.function_calls.length ≤ MAX_FUNCTION_CALLS) := by
  constructor
  · exact processEvents_bounds
  · intro timeout run
    obtain ⟨b1, b2, b3⟩ := tracedState_bounds timeout run
    obtain ⟨a1, a2, a3⟩ := analyzeTrace_lists timeout run
    refine ⟨by omega, ?_, ?_⟩
    · rw [a2]
      exact b2
    · rw [a3]
      exact b3

/-- The frame of one module-level line event with a single ordinary local
binding. -/
def c4_frame : Frame :=
  { func_name := "<module>", lineno := 7, f_locals := [("x", PyValue.int 0)] }

/-- One module-level line event with a single ordinary local binding. -/
def c4_line_event : Event := .line c4_frame

/-- A run whose 1000 line events fill the snapshot collection exactly to
`MAX_SNAPSHOTS`, completing in time with one retained global. -/
def c4_run : WorkerRun :=
  { events := List.replicate 1000 c4_line_event, finishedInTime := true,
    finalGlobals := [("x", .int 1)], parsedLoops := Option.none }

lemma c4_snapshot_loop (acc : List VariableSnapshot) :
    snapshot_loop "global" 7 [("x", PyValue.int 0)] acc =
      acc ++ [⟨"x", PyValue.int 0, "int", (7 : Int), "global"⟩] := by
  unfold snapshot_loop
  rw [if_pos (by decide)]
  dsimp only
  split
  · rfl
  · rfl

lemma handle_line_c4 (s : TracerState)
    (hsnap : s.trace.variable_snapshots.length < MAX_SNAPSHOTS)
    (hflow : s.trace.execution_flow.length < MAX_EXECUTION_FLOW)
    (h5 : s.function_frames = []) :
    (handle_line s c4_frame).stopped = s.stopped ∧
    (handle_line s c4_frame).trace.variable_snapshots.length =
      s.trace.variable_snapshots.length + 1 ∧
    (handle_line s c4_frame).trace.execution_flow.length =
      s.trace.execution_flow.length + 1 ∧
    (handle_line s c4_frame).trace.function_calls = s.trace.function_calls ∧
    (handle_line s c4_frame).function_frames = s.function_frames := by
  by_cases hv : (7 : Nat) ∈ s.visited_lines <;>
    simp [handle_line, c4_frame, hv, hflow, hsnap, h5, c4_snapshot_loop]

lemma c4_step (s : TracerState) (k : Nat) (hk : k < 1000)
    (h1 : s.stopped = false) (h2 : s.trace.variable_snapshots.length = k)
    (h3 : s.trace.execution_flow.length = k)
    (h4 : s.trace.function_calls = []) (h5 : s.function_frames = []) :
    (trace_calls s c4_line_event).stopped = false ∧
    (trace_calls s c4_line_event).trace.variable_snapshots.length = k + 1 ∧
    (trace_calls s c4_line_event).trace.execution_flow.length = k + 1 ∧
    (trace_calls s c4_line_event).trace.function_calls = [] ∧
    (trace_calls s c4_line_event).function_frames = [] := by
  have hg : ¬(MAX_SNAPSHOTS ≤ s.trace.variable_snapshots.length ∨
      MAX_EXECUTION_FLOW ≤ s.trace.execution_flow.length ∨
      MAX_FUNCTION_CALLS ≤ s.trace.function_calls.length) := by
    rw [h2, h3, h4]
    simp only [MAX_SNAPSHOTS, MAX_EXECUTION_FLOW, MAX_FUNCTION_CALLS,
      List.length_nil]
    omega
  have hsnap : s.trace.variable_snapshots.length < MAX_SNAPSHOTS := by
    rw [h2]
    simp only [MAX_SNAPSHOTS]
    omega
  have hflow : s.trace.execution_flow.length < MAX_EXECUTION_FLOW := by
    rw [h3]
    simp only [MAX_EXECUTION_FLOW]
    omega
  have hred : trace_calls s c4_line_event = handle_line s c4_frame := by
    rw [trace_calls_not_stopped s c4_line_event h1 hg]
    rfl
  obtain ⟨e1, e2, e3, e4, e5⟩ := handle_line_c4 s hsnap hflow h5
  rw [hred, e1, e2, e3, e4, e5, h1, h2, h3, h4, h5]
  exact ⟨rfl, rfl, rfl, rfl, rfl⟩

lemma c4_fold (k : Nat) (hk : k ≤ 1000) :
    (processEvents (List.replicate k c4_line_event)).stopped = false ∧
    (processEvents (List.replicate k c4_line_event)).trace.variable_snapshots.length = k ∧
    (processEvents (List.replicate k c4_line_event)).trace.execution_flow.length = k ∧
    (processEvents (List.replicate k c4_line_event)).trace.function_calls = [] ∧
    (processEvents (List.replicate k c4_line_event)).function_frames = [] := by
  induction k with
  | zero => exact ⟨rfl, rfl, rfl, rfl, rfl⟩
  | succ k ih =>
      obtain ⟨i1, i2, i3, i4, i5⟩ := ih (by omega)
      unfold processEvents at i1 i2 i3 i4 i5 ⊢
      rw [List.replicate_succ', List.foldl_append]
      simp only [List.foldl_cons, List.foldl_nil]
      exact c4_step _ k (by omega) i1 i2 i3 i4 i5

lemma analyzeTrace_snapshots_clean (timeout : Nat) (run : WorkerRun)
    (h1 : run.finishedInTime = true) (h2 : run.uncaught = Option.none) :
    (analyzeTrace timeout run).trace.variable_snapshots =
      (processEvents run.events).trace.variable_snapshots ++
        ((run.finalGlobals.filter fun p => final_globals_pass p.1).map fun p =>
          (⟨p.1, safe_serialize p.2 3, py_type_name p.2, (-1 : Int), "global"⟩ :
            VariableSnapshot)) := by
  unfold analyzeTrace append_final_globals
  rw [tracedState_of_finished timeout run h1, h1, h2]
  dsimp only
  cases hp : run.parsedLoops with
  | none => rfl
  | some loops => rfl

/-- Claim C4 counterexample: a run whose tracing fills the snapshot
collection to exactly `MAX_SNAPSHOTS` and which then completes in time with
one retained global ends with 1001 snapshots in the trace — the post-run
final-global append exceeds the ceiling. -/
theorem C4_counterexample :
    MAX_SNAPSHOTS < (analyzeTrace 5 c4_run).trace.variable_snapshots.length := by
  obtain ⟨f1, f2, f3, f4, f5⟩ := c4_fold 1000 le_rfl
  rw [analyzeTrace_snapshots_clean 5 c4_run rfl rfl, List.length_append]
  rw [show c4_run.events = List.replicate 1000 c4_line_event from rfl]
  rw [f2]
  rw [show ((c4_run.finalGlobals.filter fun p => final_globals_pass p.1).map
    fun p => (⟨p.1, safe_serialize p.2 3, py_type_name p.2, (-1 : Int),
      "global"⟩ : VariableSnapshot)).length = 1 from by decide]
  simp [MAX_SNAPSHOTS]


/-- The frame of the `j`-th nested call of the recursive function `f`. -/
def rec_call_frame (i : Nat) : Frame :=
  { func_name := "f", lineno := 10, f_locals := [("n", PyValue.int i)],
    arg_names := ["n"] }

/-- The module-level pseudo-frame. -/
def rec_module_frame : Frame := { func_name := "<module>", lineno := 1 }

/-- The call phase of a single invocation of `f` recursing to depth `k`:
the module call followed by `k` nested calls of `f`. -/
def rec_call_phase (k : Nat) : List Event :=
  .call rec_module_frame :: (List.range k).map fun i => .call (rec_call_frame i)

/-- The full event stream of the run: nested calls, then the matching
returns innermost-first, then the module return. -/
def rec_events (k : Nat) : List Event :=
  rec_call_phase k ++
    ((List.range k).map (fun i => .ret (rec_call_frame i) (.int 1)) ++
      [.ret rec_module_frame .none])

/-- The `FunctionCall` record produced by the `i`-th nested call of `f`. -/
def rec_record (i : Nat) : FunctionCall :=
  { function_name := "f", line := 10, arguments := [("n", PyValue.int i)],
    return_value := .none, stack_depth := (i : Int) + 2,
    is_recursive_call := decide (0 < i) }

lemma safe_serialize_int3 (n : Int) : safe_serialize (.int n) 3 = .int n := rfl

lemma handle_call_spec (s : TracerState) (f : Frame)
    (hmod : ¬ f.func_name = "<module>") :
    (handle_call s f).trace.function_calls =
      s.trace.function_calls ++
        [{ function_name := f.func_name, line := f.lineno,
           arguments := f.arg_names.filterMap fun an =>
             match lookupLocal f.f_locals an with
             | some v => some (an, safe_serialize v 3)
             | Option.none => Option.none,
           return_value := .none,
           stack_depth := s.current_stack_depth + 1,
           is_recursive_call := decide (f.func_name ∈ s.function_call_stack) }] ∧
    (handle_call s f).function_call_stack = f.func_name :: s.function_call_stack ∧
    (handle_call s f).current_stack_depth = s.current_stack_depth + 1 ∧
    (handle_call s f).trace.max_stack_depth =
      max s.trace.max_stack_depth (s.current_stack_depth + 1) ∧
    (handle_call s f).stopped = s.stopped ∧
    (handle_call s f).trace.variable_snapshots = s.trace.variable_snapshots ∧
    (handle_call s f).trace.execution_flow = s.trace.execution_flow := by
  unfold handle_call
  dsimp only
  rw [if_neg hmod]
  repeat' split
  all_goals exact ⟨rfl, rfl, rfl, rfl, rfl, rfl, rfl⟩

lemma rec_stack_mem (j : Nat) :
    ("f" ∈ List.replicate j "f" ++ ["<module>"]) ↔ 0 < j := by
  simp [List.mem_replicate, Nat.pos_iff_ne_zero]

/-- The invariant after the module call plus `j` nested calls of `f`. -/
def RecInv (j : Nat) (s : TracerState) : Prop :=
  s.stopped = false ∧
  s.trace.variable_snapshots = [] ∧
  s.trace.execution_flow = [] ∧
  s.trace.function_calls = (List.range j).map rec_record ∧
  s.function_call_stack = List.replicate j "f" ++ ["<module>"] ∧
  s.current_stack_depth = (j : Int) + 1 ∧
  s.trace.max_stack_depth = (j : Int) + 1

lemma rec_call_step (s : TracerState) (j : Nat) (hj : j < 500)
    (h : RecInv j s) :
    RecInv (j + 1) (trace_calls s (.call (rec_call_frame j))) := by
  obtain ⟨h1, h2, h3, h4, h5, h6, h7⟩ := h
  have hg : ¬(MAX_SNAPSHOTS ≤ s.trace.variable_snapshots.length ∨
      MAX_EXECUTION_FLOW ≤ s.trace.execution_flow.length ∨
      MAX_FUNCTION_CALLS ≤ s.trace.function_calls.length) := by
    rw [h2, h3, h4]
    simp only [MAX_SNAPSHOTS, MAX_EXECUTION_FLOW, MAX_FUNCTION_CALLS,
      List.length_nil, List.length_map, List.length_range]
    omega
  have hred : trace_calls s (.call (rec_call_frame j)) =
      handle_call s (rec_call_frame j) := by
    rw [trace_calls_not_stopped s _ h1 hg]
  rw [hred]
  obtain ⟨e1, e2, e3, e4, e5, e6, e7⟩ :=
    handle_call_spec s (rec_call_frame j)
      (show ¬ ("f" : String) = "<module>" from by decide)
  refine ⟨?_, ?_, ?_, ?_, ?_, ?_, ?_⟩
  · rw [e5, h1]
  · rw [e6, h2]
  · rw [e7, h3]
  · rw [e1, h4, h6, h5]
    rw [List.range_succ, List.map_append]
    congr 1
    show _ = [rec_record j]
    refine congrArg (fun r => [r]) ?_
    unfold rec_record
    simp only [FunctionCall.mk.injEq]
    refine ⟨rfl, rfl, ?_, trivial, by omega, ?_⟩
    · simp [rec_call_frame, lookupLocal, safe_serialize_int3]
    · rw [decide_eq_decide]
      exact rec_stack_mem j
  · rw [e2, h5]
    show "f" :: _ = List.replicate (j + 1) "f" ++ ["<module>"]
    rw [List.replicate_succ, List.cons_append]
  · rw [e3, h6]
    push_cast
    ring
  · rw [e4, h7, h6]
    rw [max_eq_right (by omega)]
    push_cast
    ring

lemma rec_call_phase_inv (k : Nat) (hk : k ≤ 500) :
    RecInv k (processEvents (rec_call_phase k)) := by
  induction k with
  | zero =>
      refine ⟨rfl, rfl, rfl, rfl, rfl, rfl, rfl⟩
  | succ k ih =>
      have hphase : rec_call_phase (k + 1) =
          rec_call_phase k ++ [.call (rec_call_frame k)] := by
        unfold rec_call_phase
        rw [List.range_succ, List.map_append, List.cons_append]
        rfl
      rw [hphase]
      unfold processEvents at ih ⊢
      rw [List.foldl_append]
      simp only [List.foldl_cons, List.foldl_nil]
      exact rec_call_step _ k (by omega) (ih (by omega))

/-- The observation used for the recursion claim: a call record's function
name together with its recursion flag. -/
def rec_pair (c : FunctionCall) : String × Bool :=
  (c.function_name, c.is_recursive_call)

lemma fill_return_pairs (name : String) (v : PyValue) (l : List FunctionCall) :
    (fill_return name v l).map rec_pair = l.map rec_pair := by
  induction l with
  | nil => rfl
  | cons c rest ih =>
      unfold fill_return
      split
      · rfl
      · simp only [List.map_cons, ih]

lemma handle_return_pairs (s : TracerState) (f : Frame) (a : PyValue) :
    (handle_return s f a).trace.function_calls.map rec_pair =
      s.trace.function_calls.map rec_pair ∧
    (handle_return s f a).trace.max_stack_depth = s.trace.max_stack_depth := by
  unfold handle_return
  dsimp only
  split
  · exact ⟨rfl, rfl⟩
  · constructor
    · show ((fill_return f.func_name (safe_serialize a 3)
        s.trace.function_calls.reverse).reverse).map rec_pair = _
      rw [List.map_reverse, fill_return_pairs, ← List.map_reverse,
        List.reverse_reverse]
    · rfl

lemma handle_line_max (s : TracerState) (f : Frame) :
    (handle_line s f).trace.max_stack_depth = s.trace.max_stack_depth := by
  unfold handle_line
  dsimp only
  repeat' split
  all_goals rfl

lemma trace_calls_pairs_nonCall (s : TracerState) (e : Event)
    (he : e.isCall = false) :
    (trace_calls s e).trace.function_calls.map rec_pair =
      s.trace.function_calls.map rec_pair ∧
    s.trace.max_stack_depth ≤ (trace_calls s e).trace.max_stack_depth := by
  unfold trace_calls
  split
  · exact ⟨rfl, le_refl _⟩
  split
  · exact ⟨rfl, le_refl _⟩
  cases e with
  | call f => simp [Event.isCall] at he
  | line f =>
      refine ⟨by rw [handle_line_calls], ?_⟩
      rw [handle_line_max]
  | ret f a =>
      obtain ⟨p1, p2⟩ := handle_return_pairs s f a
      exact ⟨p1, le_of_eq p2.symm⟩
  | exc f t v tb => exact ⟨rfl, le_refl _⟩

lemma foldl_pairs_nonCall (evs : List Event) (s : TracerState)
    (he : ∀ e ∈ evs, e.isCall = false) :
    (evs.foldl trace_calls s).trace.function_calls.map rec_pair =
      s.trace.function_calls.map rec_pair ∧
    s.trace.max_stack_depth ≤ (evs.foldl trace_calls s).trace.max_stack_depth := by
  induction evs generalizing s with
  | nil => exact ⟨rfl, le_refl _⟩
  | cons e rest ih =>
      have h1 := trace_calls_pairs_nonCall s e (he e (List.mem_cons_self e rest))
      have h2 := ih (trace_calls s e) (fun x hx => he x (List.mem_cons_of_mem e hx))
      exact ⟨h2.1.trans h1.1, le_trans h1.2 h2.2⟩

lemma countP_eq_of_map_pair_eq (l1 l2 : List FunctionCall)
    (h : l1.map rec_pair = l2.map rec_pair) (q : String × Bool → Bool) :
    l1.countP (fun c => q (rec_pair c)) = l2.countP (fun c => q (rec_pair c)) := by
  show l1.countP (q ∘ rec_pair) = l2.countP (q ∘ rec_pair)
  rw [← List.countP_map, ← List.countP_map, h]

lemma countP_range_eq_zero (k : Nat) (hk : 1 ≤ k) :
    (List.range k).countP (fun i => decide (i = 0)) = 1 := by
  induction k with
  | zero => omega
  | succ k ih =>
      rw [List.range_succ, List.countP_append]
      rcases Nat.eq_zero_or_pos k with hk0 | hk1
      · subst hk0
        rfl
      · rw [ih hk1]
        simp [List.countP_cons, Nat.pos_iff_ne_zero.mp hk1]

lemma countP_range_pos (k : Nat) :
    (List.range k).countP (fun i => decide (0 < i)) = k - 1 := by
  induction k with
  | zero => rfl
  | succ k ih =>
      rw [List.range_succ, List.countP_append, ih]
      rcases Nat.eq_zero_or_pos k with hk0 | hk1
      · subst hk0
        rfl
      · simp only [List.countP_cons, List.countP_nil]
        simp [hk1]
        omega

/-- Claim C8: a single invocation of a one-argument function recursing to
depth `k` (within the ceilings) yields exactly `k` call records for that
function name, exactly one of them flagged non-recursive (the initial call)
and the other `k - 1` flagged recursive — the flag being a membership test
against the active call-name stack before the new frame's name is pushed —
and a maximum stack depth of at least `k`. -/
theorem C8_theorem (k : Nat) (hk1 : 1 ≤ k) (hk2 : k ≤ 500) :
    ((processEvents (rec_events k)).trace.function_calls.countP
      fun c => decide (c.function_name = "f")) = k ∧
    ((processEvents (rec_events k)).trace.function_calls.countP
      fun c => decide (c.function_name = "f" ∧ c.is_recursive_call = false)) = 1 ∧
    ((processEvents (rec_events k)).trace.function_calls.countP
      fun c => decide (c.function_name = "f" ∧ c.is_recursive_call = true)) = k - 1 ∧
    (k : Int) ≤ (processEvents (rec_events k)).trace.max_stack_depth := by
  obtain ⟨v1, v2, v3, v4, v5, v6, v7⟩ := rec_call_phase_inv k hk2
  have hsplit : processEvents (rec_events k) =
      ((List.range k).map (fun i => Event.ret (rec_call_frame i) (.int 1)) ++
        [Event.ret rec_module_frame .none]).foldl trace_calls
        (processEvents (rec_call_phase k)) := by
    unfold processEvents rec_events
    rw [List.foldl_append]
  have hnc : ∀ e ∈ ((List.range k).map
      (fun i => Event.ret (rec_call_frame i) (.int 1)) ++
        [Event.ret rec_module_frame .none]), e.isCall = false := by
    intro e he
    rcases List.mem_append.mp he with hm | hm
    · obtain ⟨i, -, rfl⟩ := List.mem_map.mp hm
      rfl
    · rw [List.mem_singleton.mp hm]
      rfl
  obtain ⟨hmap, hmax⟩ := foldl_pairs_nonCall _ (processEvents (rec_call_phase k)) hnc
  rw [← hsplit] at hmap hmax
  rw [v4] at hmap
  have main : ∀ q : String × Bool → Bool,
      ((processEvents (rec_events k)).trace.function_calls.countP
        fun c => q (rec_pair c)) =
      (List.range k).countP fun i => q ("f", decide (0 < i)) := by
    intro q
    have h1' := countP_eq_of_map_pair_eq
      (processEvents (rec_events k)).trace.function_calls
      ((List.range k).map rec_record) hmap q
    rw [h1']
    rw [List.countP_map]
    rfl
  refine ⟨?_, ?_, ?_, ?_⟩
  · have hm := main fun x => decide (x.1 = "f")
    have hr : ((List.range k).countP fun i => decide (("f" : String) = "f")) = k := by
      simp
    exact hm.trans hr
  · have hm := main fun x => decide (x.1 = "f" ∧ x.2 = false)
    have hr : ((List.range k).countP
        fun i => decide (("f" : String) = "f" ∧ decide (0 < i) = false)) = 1 := by
      rw [List.countP_congr]
      · exact countP_range_eq_zero k hk1
      · intro i hi
        simp [Nat.pos_iff_ne_zero]
    exact hm.trans hr
  · have hm := main fun x => decide (x.1 = "f" ∧ x.2 = true)
    have hr : ((List.range k).countP
        fun i => decide (("f" : String) = "f" ∧ decide (0 < i) = true)) = k - 1 := by
      rw [List.countP_congr]
      · exact countP_range_pos k
      · intro i hi
        simp
    exact hm.trans hr
  · rw [v7] at hmax
    have : (k : Int) ≤ (k : Int) + 1 := by omega
    exact le_trans this hmax

/-- Witness for `C8_theorem` at recursion depth 3. -/
theorem C8_witness :
    (1 ≤ 3 ∧ 3 ≤ 500) ∧
    (((processEvents (rec_events 3)).trace.function_calls.countP
      fun c => decide (c.function_name = "f")) = 3 ∧
    ((processEvents (rec_events 3)).trace.function_calls.countP
      fun c => decide (c.function_name = "f" ∧ c.is_recursive_call = false)) = 1 ∧
    ((processEvents (rec_events 3)).trace.function_calls.countP
      fun c => decide (c.function_name = "f" ∧ c.is_recursive_call = true)) = 3 - 1 ∧
    ((3 : Nat) : Int) ≤ (processEvents (rec_events 3)).trace.max_stack_depth) :=
  ⟨⟨by decide, by decide⟩, C8_theorem 3 (by decide) (by decide)⟩


end DynAnalyzer
